import Mathlib

/-!
Verification development for the nutrition-assistant RAG chat application.

Server side (src/rag-chat/src/app/api/chat/route.ts): request validation,
context assembly, empty-context short-circuit, source normalization and
top-level error handling of the POST handler.

Client side (src/rag-chat/src/app/page.tsx): citation-marker parsing
(parseCitations), render-time token splitting of the answer text, and the
citation-popup state.

JavaScript runtime values that cross the JSON boundary (Supabase RPC rows,
the chat endpoint's JSON body and response) are modelled by `JVal`: JSON can
carry only finite numbers, strings, booleans and null, so a numeric value is
a rational and `typeof v === "number"` coincides with "v is a finite number".
Absent object fields (`undefined`) are modelled with `Option`.
-/

namespace RagChat

/-- A JSON-transported JavaScript value: a finite number, a string, a
boolean, or null. -/
inductive JVal where
  | jnum (q : ℚ)
  | jstr (s : String)
  | jbool (b : Bool)
  | jnull
  deriving DecidableEq, Repr

/-- Mirrors `RetrievedChunkMetadata` from route.ts: an optional `page` field
whose runtime value may have any JSON type (further keys are unused and
omitted). -/
structure RetrievedChunkMetadata where
  page : Option JVal
  deriving DecidableEq, Repr

/-- Mirrors `RetrievedChunk` from route.ts: one row returned by the
`match_documents` RPC. `similarity` is declared `number` in TypeScript but
arrives untyped from JSON, hence `JVal`. -/
structure RetrievedChunk where
  content : String
  similarity : JVal
  metadata : Option RetrievedChunkMetadata
  deriving DecidableEq, Repr

/-- Mirrors `ApiSource` from route.ts: the normalized source shape returned
to the client. -/
structure ApiSource where
  id : String
  page : Option ℚ
  content : String
  similarity : ℚ
  index : Nat
  deriving DecidableEq, Repr

/-- Index-aware map, starting the index at `k`; models
`Array.prototype.map((x, i) => ...)`. -/
def mapWithIndexFrom (f : Nat → α → β) : Nat → List α → List β
  | _, [] => []
  | i, a :: as => f i a :: mapWithIndexFrom f (i + 1) as

/-- Models JavaScript `list.map((x, i) => f i x)`. -/
def mapWithIndex (f : Nat → α → β) (l : List α) : List β :=
  mapWithIndexFrom f 0 l

/-- The check `typeof c.metadata?.page === "number" ? c.metadata.page : ...`
from route.ts, as the numeric page value when present. -/
def chunkPage (c : RetrievedChunk) : Option ℚ :=
  match c.metadata with
  | some m =>
    match m.page with
    | some (JVal.jnum q) => some q
    | _ => none
  | none => none

/-- The page label interpolated into a context entry: the numeric page, or
the sentinel "?" when absent or non-numeric (route.ts line 79). -/
def pageLabel (c : RetrievedChunk) : String :=
  match chunkPage c with
  | some q => toString q
  | none => "?"

/-- One context entry: the template literal
`[${i + 1}] (Page ${pageNum}) ${c.content}` from route.ts line 80. -/
def contextEntry (i : Nat) (c : RetrievedChunk) : String :=
  "[" ++ toString (i + 1) ++ "] (Page " ++ pageLabel c ++ ") " ++ c.content

/-- The assembled context block: entries joined with a blank-line separator
(route.ts lines 77-82). -/
def context (chunks : List RetrievedChunk) : String :=
  String.intercalate "\n\n" (mapWithIndex contextEntry chunks)

/-- One normalized source, from the mapping at route.ts lines 113-121. -/
def processSource (index : Nat) (chunk : RetrievedChunk) : ApiSource :=
  { id := "source-" ++ toString index
    page := chunkPage chunk
    content := chunk.content
    similarity :=
      match chunk.similarity with
      | JVal.jnum q => q
      | _ => 0
    index := index + 1 }

/-- The `processedSources` array built at route.ts lines 113-121. -/
def processedSources (chunks : List RetrievedChunk) : List ApiSource :=
  mapWithIndex processSource chunks

/-- The fixed fallback answer returned on an empty context
(route.ts lines 86-90). -/
def fallbackAnswer : String :=
  "try to response  related to the question and the context provided"

/-- The external services the POST handler calls, modelled as functions from
the request data to either a result or a thrown error's description:
`embed` is the embedding call, `retrieve` the Supabase RPC (whose `data` may
be null), `generate` the chat-completion call (whose message content may be
null, handled by `?? ""`). -/
structure Env where
  embed : String → Except String (List ℚ)
  retrieve : List ℚ → Except String (Option (List RetrievedChunk))
  generate : String → String → Except String (Option String)

/-- The HTTP responses the POST handler can produce: 400 with an error body,
200 with answer and sources, or 500 with an error body. -/
inductive ApiResponse where
  | badRequest (error : String)
  | ok (answer : String) (sources : List ApiSource)
  | serverError (error : String)
  deriving DecidableEq, Repr

/-- Which pipeline stages a request actually invoked. -/
structure Trace where
  embedCalled : Bool
  retrieveCalled : Bool
  generateCalled : Bool
  deriving DecidableEq, Repr

/-- The catch-clause body `message || "Unknown error"` from route.ts
line 131: an empty description is replaced by "Unknown error". -/
def errBody (msg : String) : String :=
  if msg = "" then "Unknown error" else msg

/-- JavaScript `String.prototype.trim`: drop leading and trailing
whitespace. -/
def jsTrim (s : String) : String :=
  String.mk (((s.data.dropWhile Char.isWhitespace).reverse.dropWhile
    Char.isWhitespace).reverse)

/-- The POST handler of route.ts lines 46-136, as a function of the external
services and the request's message string: trim-validate, embed, retrieve,
assemble context, short-circuit on empty context, generate, normalize
sources; any stage failure falls to the catch clause (500). Also returns
which stages were invoked. -/
def POST (env : Env) (rawMessage : String) : ApiResponse × Trace :=
  let message := jsTrim rawMessage
  if message = "" then
    (ApiResponse.badRequest "Empty query", ⟨false, false, false⟩)
  else
    match env.embed message with
    | Except.error e => (ApiResponse.serverError (errBody e), ⟨true, false, false⟩)
    | Except.ok queryEmb =>
      match env.retrieve queryEmb with
      | Except.error e => (ApiResponse.serverError (errBody e), ⟨true, true, false⟩)
      | Except.ok chunksOpt =>
        let chunks := chunksOpt.getD []
        let ctx := context chunks
        if ctx = "" then
          (ApiResponse.ok fallbackAnswer [], ⟨true, true, false⟩)
        else
          match env.generate message ctx with
          | Except.error e => (ApiResponse.serverError (errBody e), ⟨true, true, true⟩)
          | Except.ok answerOpt =>
            (ApiResponse.ok (answerOpt.getD "") (processedSources chunks), ⟨true, true, true⟩)

/-- Mirrors the client-side `ApiSource` interface of page.tsx lines 72-77:
every field optional, values arriving from JSON (the server sends `page` as
number or null, so `page` may also hold `jnull`). -/
structure ClientSource where
  id : Option String
  page : Option JVal
  content : Option String
  similarity : Option JVal
  deriving DecidableEq, Repr

/-- Mirrors the `Citation` interface of page.tsx lines 10-15. -/
structure Citation where
  id : String
  page : ℚ
  content : String
  similarity : ℚ
  deriving DecidableEq, Repr

/-- The numeric value of a digit string, as `parseInt` computes it on the
digits captured by the marker regex. -/
def digitsVal (ds : List Char) : Nat :=
  ds.foldl (fun acc c => acc * 10 + (c.toNat - Char.toNat '0')) 0

/-- One token of the answer text as the regex `/(\[\d+\])/` sees it: a run
of literal text, or a complete citation marker with its raw form and its
parsed number. -/
inductive Seg where
  | text (s : String)
  | marker (raw : String) (n : Nat)
  deriving DecidableEq, Repr

/-- Left-to-right lexer for the regex `\[(\d+)\]`, equivalent to JavaScript
leftmost, non-overlapping matching: `lit` accumulates the pending literal
run (reversed) and `ds` the digits of an open `[`-attempt (reversed); a
failed attempt (no digits, or no closing bracket right after the digits)
falls back into the literal run, exactly as the regex engine restarts one
position after the failed `[`. Literal runs are emitted even when empty,
matching `String.prototype.split` with a capturing group. -/
def lexLoop : List Char → List Char → Option (List Char) → List Seg
  | [], lit, none => [Seg.text (String.mk lit.reverse)]
  | [], lit, some ds => [Seg.text (String.mk ((ds ++ '[' :: lit).reverse))]
  | c :: rest, lit, none =>
    if c = '[' then lexLoop rest lit (some [])
    else lexLoop rest (c :: lit) none
  | c :: rest, lit, some ds =>
    if c.isDigit then lexLoop rest lit (some (c :: ds))
    else if c = ']' then
      match ds with
      | [] => lexLoop rest (']' :: '[' :: lit) none
      | _ :: _ =>
        Seg.text (String.mk lit.reverse) ::
          Seg.marker (String.mk ('[' :: (ds.reverse ++ [']']))) (digitsVal ds.reverse) ::
            lexLoop rest [] none
    else if c = '[' then lexLoop rest (ds ++ '[' :: lit) (some [])
    else lexLoop rest (c :: ds ++ '[' :: lit) none

/-- All tokens of a string under the marker regex. -/
def lexMarkers (s : String) : List Seg :=
  lexLoop s.data [] none

/-- The token strings produced by `content.split(/(\[\d+\])/)` at page.tsx
line 201: literal runs and raw marker tokens, alternating. -/
def splitParts (s : String) : List String :=
  (lexMarkers s).map fun seg =>
    match seg with
    | Seg.text t => t
    | Seg.marker raw _ => raw

/-- The numbers of all marker occurrences, in text order: the result of
`content.match(/\[(\d+)\]/g)` at page.tsx line 85 mapped through
`parseInt(match.replace(/[\[\]]/g, ""))`. -/
def scanMarkers (s : String) : List Nat :=
  (lexMarkers s).filterMap fun seg =>
    match seg with
    | Seg.marker _ n => some n
    | _ => none

/-- The first marker occurrence in a string with its raw form and number:
the result of `part.match(/\[(\d+)\]/)` at page.tsx line 202. -/
def firstMarker (s : String) : Option (String × Nat) :=
  ((lexMarkers s).filterMap fun seg =>
    match seg with
    | Seg.marker raw n => some (raw, n)
    | _ => none).head?

/-- First-occurrence deduplication with an explicit seen-set, the semantics
of `[...new Set(list)]` (insertion-ordered, duplicates collapsed). -/
def uniqueAux : List Nat → List Nat → List Nat
  | [], _ => []
  | n :: rest, seen =>
    if n ∈ seen then uniqueAux rest seen
    else n :: uniqueAux rest (n :: seen)

/-- Models `[...new Set(list)]` at page.tsx line 87: distinct elements in
order of first occurrence. -/
def uniqueInOrder (l : List Nat) : List Nat :=
  uniqueAux l []

/-- JavaScript array indexing with a possibly negative index: `l[i]` is
`undefined` when `i < 0` or `i >= l.length`. -/
def listGetInt (l : List α) (i : Int) : Option α :=
  if 0 ≤ i then l[i.toNat]? else none

/-- The body of the `uniqueCitations.forEach` at page.tsx lines 89-99:
resolve `sources[citationNumber - 1]`; when present, build the Citation
with its defensive defaults (`id ?? citation-${sourceIndex}`, numeric page
or `sourceIndex + 1`, content or empty, numeric similarity or 0). -/
def citationFor (sources : List ClientSource) (citationNumber : Nat) : Option Citation :=
  let sourceIndex : Int := (citationNumber : Int) - 1
  match listGetInt sources sourceIndex with
  | none => none
  | some s =>
    some { id := s.id.getD ("citation-" ++ toString sourceIndex)
           page :=
             match s.page with
             | some (JVal.jnum q) => q
             | _ => ((sourceIndex + 1 : Int) : ℚ)
           content := s.content.getD ""
           similarity :=
             match s.similarity with
             | some (JVal.jnum q) => q
             | _ => 0 }

/-- The `parseCitations` function of page.tsx lines 79-103: the text is
returned unchanged; the citation list is built from the distinct marker
numbers (first-occurrence order) when the match list is non-null and the
source list non-empty, resolving each against the sources. -/
def parseCitations (content : String) (sources : List ClientSource) :
    String × List Citation :=
  let found := scanMarkers content
  let text := content
  let citations :=
    if found ≠ [] ∧ sources.length > 0 then
      (uniqueInOrder found).filterMap (citationFor sources)
    else []
  (text, citations)

/-- A rendered token of an assistant message: plain text (a `span`) or an
interactive citation control (a `button` labelled with the bracketed
digits, carrying the resolved citation). -/
inductive RToken where
  | literal (s : String)
  | button (label : String) (c : Citation)
  deriving DecidableEq, Repr

/-- Rendering of one split part, page.tsx lines 201-218: re-match the part
against `/\[(\d+)\]/`; when it is a marker, `message.citations` exists and
`citations[parseInt(digits) - 1]` is present, render an interactive button
labelled with the bracketed digits; otherwise render the part as literal
text. -/
def renderPart (citations : Option (List Citation)) (part : String) : RToken :=
  match firstMarker part, citations with
  | some (raw, n), some cits =>
    (match listGetInt cits ((n : Int) - 1) with
     | some c => RToken.button raw c
     | none => RToken.literal part)
  | _, _ => RToken.literal part

/-- Rendering of a full assistant message body, page.tsx lines 201-219:
split on the marker pattern, then render each part. -/
def renderMessage (content : String) (citations : Option (List Citation)) :
    List RToken :=
  (splitParts content).map (renderPart citations)

/-- The fields of a DOM bounding box the popup positioning reads
(page.tsx line 106). -/
structure Rect where
  left : Int
  top : Int
  deriving DecidableEq, Repr

/-- Mirrors the `CitationPopup` interface of page.tsx lines 17-21. -/
structure CitationPopup where
  citation : Citation
  x : Int
  y : Int
  deriving DecidableEq, Repr

/-- The user events that mutate the popup state: activating a citation
control (with its bounding box), pressing the popup's close control, or
clicking the full-screen scrim. -/
inductive PopupEvent where
  | activate (c : Citation) (r : Rect)
  | closeButton
  | scrimClick
  deriving DecidableEq, Repr

/-- The popup state transitions of page.tsx lines 105-116 and 317-323:
`handleCitationClick` sets the single state slot to the new citation,
positioned at the control's left edge and 10px above its top, regardless of
the previous state; the close control and the scrim click both call
`closeCitationPopup`, setting the slot to null. -/
def popupStep : Option CitationPopup → PopupEvent → Option CitationPopup
  | _, PopupEvent.activate c r => some ⟨c, r.left, r.top - 10⟩
  | _, PopupEvent.closeButton => none
  | _, PopupEvent.scrimClick => none

/-! Concrete data used to evaluate the definitions on sample inputs. -/

/-- A sample retrieved chunk with a numeric page. -/
def chunkW : RetrievedChunk :=
  { content := "alpha", similarity := JVal.jnum 1
    metadata := some { page := some (JVal.jnum 12) } }

/-- A sample environment: embedding and retrieval succeed but retrieval
finds nothing. -/
def envEmptyW : Env :=
  { embed := fun _ => Except.ok []
    retrieve := fun _ => Except.ok (some [])
    generate := fun _ _ => Except.ok (some "unused") }

/-- A sample environment whose embedding stage fails with description
"boom". -/
def envBoomW : Env :=
  { embed := fun _ => Except.error "boom"
    retrieve := fun _ => Except.ok none
    generate := fun _ _ => Except.ok none }

/-- A sample environment whose embedding stage fails with an empty
description. -/
def envBlankErrW : Env :=
  { embed := fun _ => Except.error ""
    retrieve := fun _ => Except.ok none
    generate := fun _ _ => Except.ok none }

/-- First sample client source. -/
def srcA : ClientSource :=
  { id := some "source-0", page := some (JVal.jnum 11)
    content := some "alpha", similarity := some (JVal.jnum 1) }

/-- Second sample client source. -/
def srcB : ClientSource :=
  { id := some "source-1", page := some (JVal.jnum 22)
    content := some "beta", similarity := some (JVal.jnum 1) }

/-- Third sample client source. -/
def srcC : ClientSource :=
  { id := some "source-2", page := some (JVal.jnum 33)
    content := some "gamma", similarity := some (JVal.jnum 1) }

/-! General lemmas about the auxiliary functions. -/

theorem mapWithIndexFrom_length (f : Nat → α → β) (k : Nat) (l : List α) :
    (mapWithIndexFrom f k l).length = l.length := by
  induction l generalizing k with
  | nil => rfl
  | cons a t ih => simp [mapWithIndexFrom, ih]

theorem mapWithIndexFrom_getElem? (f : Nat → α → β) (k : Nat) (l : List α) (i : Nat) :
    (mapWithIndexFrom f k l)[i]? = (l[i]?).map (f (k + i)) := by
  induction l generalizing k i with
  | nil => simp [mapWithIndexFrom]
  | cons a t ih =>
    cases i with
    | zero => simp [mapWithIndexFrom]
    | succ j =>
      have harith : k + 1 + j = k + (j + 1) := by omega
      simp only [mapWithIndexFrom, List.getElem?_cons_succ, ih (k + 1) j, harith]

theorem mapWithIndex_length (f : Nat → α → β) (l : List α) :
    (mapWithIndex f l).length = l.length :=
  mapWithIndexFrom_length f 0 l

theorem mapWithIndex_getElem? (f : Nat → α → β) (l : List α) (i : Nat) :
    (mapWithIndex f l)[i]? = (l[i]?).map (f i) := by
  simpa using mapWithIndexFrom_getElem? f 0 l i

theorem uniqueAux_mem (l : List Nat) (seen : List Nat) (x : Nat) :
    x ∈ uniqueAux l seen ↔ x ∈ l ∧ x ∉ seen := by
  induction l generalizing seen with
  | nil => simp [uniqueAux]
  | cons n rest ih =>
    by_cases hn : n ∈ seen
    · simp only [uniqueAux, if_pos hn, ih, List.mem_cons]
      constructor
      · rintro ⟨hx, hxs⟩
        exact ⟨Or.inr hx, hxs⟩
      · rintro ⟨rfl | hx, hxs⟩
        · exact absurd hn hxs
        · exact ⟨hx, hxs⟩
    · simp only [uniqueAux, if_neg hn, List.mem_cons, ih]
      constructor
      · rintro (rfl | ⟨hx, hxs⟩)
        · exact ⟨Or.inl rfl, hn⟩
        · exact ⟨Or.inr hx, fun hxseen => hxs (Or.inr hxseen)⟩
      · rintro ⟨rfl | hx, hxs⟩
        · exact Or.inl rfl
        · by_cases hxn : x = n
          · exact Or.inl hxn
          · exact Or.inr ⟨hx, fun hxns => hxns.elim hxn hxs⟩

theorem uniqueAux_nodup (l : List Nat) (seen : List Nat) :
    (uniqueAux l seen).Nodup := by
  induction l generalizing seen with
  | nil => simp [uniqueAux]
  | cons n rest ih =>
    by_cases hn : n ∈ seen
    · simpa [uniqueAux, if_pos hn] using ih seen
    · simp only [uniqueAux, if_neg hn, List.nodup_cons]
      refine ⟨fun hmem => ?_, ih (n :: seen)⟩
      have := (uniqueAux_mem rest (n :: seen) n).mp hmem
      exact this.2 (List.mem_cons_self n seen)

theorem uniqueInOrder_nodup (l : List Nat) : (uniqueInOrder l).Nodup :=
  uniqueAux_nodup l []

theorem uniqueInOrder_mem (l : List Nat) (x : Nat) :
    x ∈ uniqueInOrder l ↔ x ∈ l := by
  simpa using uniqueAux_mem l [] x

theorem toString_int_ofNat (m : Nat) : toString ((m : Int)) = toString m := rfl

theorem listGetInt_pred (l : List α) (n : Nat) :
    listGetInt l ((n : Int) - 1) =
      if h : 1 ≤ n ∧ n ≤ l.length then some (l.get ⟨n - 1, by omega⟩) else none := by
  rcases Nat.eq_zero_or_pos n with rfl | hn
  · rw [dif_neg (by omega)]
    simp [listGetInt]
  · obtain ⟨m, rfl⟩ : ∃ m, n = m + 1 := ⟨n - 1, by omega⟩
    have h1 : ((m + 1 : Nat) : Int) - 1 = (m : Int) := by push_cast; ring
    rw [h1]
    by_cases hm : m < l.length
    · rw [dif_pos ⟨by omega, by omega⟩]
      simp [listGetInt, List.getElem?_eq_getElem hm]
    · rw [dif_neg (by omega)]
      have hnone : l[m]? = none := List.getElem?_eq_none (by omega)
      simp [listGetInt, hnone]

theorem citationFor_eq (sources : List ClientSource) (n : Nat) :
    citationFor sources n =
      if h : 1 ≤ n ∧ n ≤ sources.length then
        some { id := (sources.get ⟨n - 1, by omega⟩).id.getD ("citation-" ++ toString (n - 1))
               page :=
                 match (sources.get ⟨n - 1, by omega⟩).page with
                 | some (JVal.jnum q) => q
                 | _ => (n : ℚ)
               content := (sources.get ⟨n - 1, by omega⟩).content.getD ""
               similarity :=
                 match (sources.get ⟨n - 1, by omega⟩).similarity with
                 | some (JVal.jnum q) => q
                 | _ => 0 }
      else none := by
  simp only [citationFor, listGetInt_pred]
  by_cases h : 1 ≤ n ∧ n ≤ sources.length
  · rw [dif_pos h, dif_pos h]
    rw [show ((n : Int) - 1 + 1) = (n : Int) by ring]
    rw [show ((n : Int) - 1) = ((n - 1 : Nat) : Int) by omega]
    rw [toString_int_ofNat]
    simp only [Int.cast_natCast]
  · rw [dif_neg h, dif_neg h]

theorem citationFor_nil (n : Nat) : citationFor [] n = none := by
  rw [citationFor_eq, dif_neg]
  rintro ⟨h1, h2⟩
  simp only [List.length_nil] at h2
  omega

theorem parseCitations_snd (content : String) (sources : List ClientSource) :
    (parseCitations content sources).2 =
      (uniqueInOrder (scanMarkers content)).filterMap (citationFor sources) := by
  simp only [parseCitations]
  by_cases h1 : scanMarkers content = []
  · simp [h1, uniqueInOrder, uniqueAux]
  · by_cases h2 : sources.length > 0
    · simp [h1, h2]
    · have hs : sources = [] := List.length_eq_zero.mp (by omega)
      subst hs
      rw [if_neg (by simp [h1])]
      exact (List.filterMap_eq_nil_iff.mpr fun a _ => citationFor_nil a).symm

theorem renderPart_eq (cits : List Citation) (part : String) :
    renderPart (some cits) part =
      match firstMarker part with
      | some (raw, n) =>
        if h : 1 ≤ n ∧ n ≤ cits.length then
          RToken.button raw (cits.get ⟨n - 1, by omega⟩)
        else RToken.literal part
      | none => RToken.literal part := by
  unfold renderPart
  cases hfm : firstMarker part with
  | none => rfl
  | some rn =>
    obtain ⟨raw, n⟩ := rn
    simp only [listGetInt_pred]
    by_cases h : 1 ≤ n ∧ n ≤ cits.length
    · simp [dif_pos h]
    · simp [dif_neg h]

theorem length_filterMap_eq_length_filter (f : α → Option β) (l : List α) :
    (l.filterMap f).length = (l.filter fun a => (f a).isSome).length := by
  induction l with
  | nil => rfl
  | cons a t ih =>
    cases h : f a with
    | none => simp [List.filterMap_cons, h, List.filter_cons, ih]
    | some b => simp [List.filterMap_cons, h, List.filter_cons, ih]

theorem citationFor_isSome (sources : List ClientSource) (n : Nat) :
    (citationFor sources n).isSome ↔ 1 ≤ n ∧ n ≤ sources.length := by
  rw [citationFor_eq]
  by_cases h : 1 ≤ n ∧ n ≤ sources.length
  · simp [h]
  · simp [h]

theorem nodup_range_length_le {l : List Nat} {k : Nat}
    (hnd : l.Nodup) (hmem : ∀ x ∈ l, 1 ≤ x ∧ x ≤ k) : l.length ≤ k := by
  classical
  have hsub : l.toFinset ⊆ Finset.Icc 1 k := by
    intro x hx
    rw [List.mem_toFinset] at hx
    exact Finset.mem_Icc.mpr (hmem x hx)
  have hcard := Finset.card_le_card hsub
  rw [List.toFinset_card_of_nodup hnd] at hcard
  simpa [Nat.card_Icc] using hcard

theorem parseCitations_length_le (content : String) (sources : List ClientSource) :
    (parseCitations content sources).2.length ≤ sources.length := by
  rw [parseCitations_snd, length_filterMap_eq_length_filter]
  apply nodup_range_length_le ((uniqueInOrder_nodup _).filter _)
  intro x hx
  have hx1 := List.mem_filter.mp hx
  exact (citationFor_isSome sources x).mp (by simpa using hx1.2)

/-! Claim theorems. -/

/-- C1: for every retrieved passage list, source normalization returns one
Source per passage in the same order, with index i + 1 at position i, id
"source-" ++ i, page the passage's numeric page or none when absent or
non-numeric, and similarity coerced to 0 when not a (finite, since
JSON-transported) number. -/
theorem processedSources_spec (chunks : List RetrievedChunk) :
    (processedSources chunks).length = chunks.length ∧
    ∀ i chunk, chunks[i]? = some chunk →
      (processedSources chunks)[i]? = some
        ({ id := "source-" ++ toString i
           page :=
             match chunk.metadata with
             | some m =>
               (match m.page with
                | some (JVal.jnum q) => some q
                | _ => none)
             | none => none
           content := chunk.content
           similarity :=
             match chunk.similarity with
             | JVal.jnum q => q
             | _ => 0
           index := i + 1 } : ApiSource) := by
  refine ⟨mapWithIndex_length _ _, fun i chunk h => ?_⟩
  rw [processedSources, mapWithIndex_getElem?, h]
  rfl

/-- Witness for C1 at a one-element list with a numeric page. -/
theorem processedSources_spec_witness :
    (processedSources [chunkW])[0]? = some
      { id := "source-0", page := some 12, content := "alpha"
        similarity := 1, index := 1 } :=
  (processedSources_spec [chunkW]).2 0 chunkW rfl

/-- C2: the citation list is the distinct marker numbers of the text in
order of first occurrence (duplicates collapsed), where each distinct n
yields a Citation exactly when 1 ≤ n ≤ sources.length, resolved from
sources[n - 1] with page defaulting to n when the source has no numeric
page; out-of-range numbers are dropped. -/
theorem citation_list_spec (content : String) (sources : List ClientSource) :
    (parseCitations content sources).2 =
      (uniqueInOrder (scanMarkers content)).filterMap (fun n =>
        if h : 1 ≤ n ∧ n ≤ sources.length then
          some { id := (sources.get ⟨n - 1, by omega⟩).id.getD ("citation-" ++ toString (n - 1))
                 page :=
                   match (sources.get ⟨n - 1, by omega⟩).page with
                   | some (JVal.jnum q) => q
                   | _ => (n : ℚ)
                 content := (sources.get ⟨n - 1, by omega⟩).content.getD ""
                 similarity :=
                   match (sources.get ⟨n - 1, by omega⟩).similarity with
                   | some (JVal.jnum q) => q
                   | _ => 0 }
        else none) ∧
    (uniqueInOrder (scanMarkers content)).Nodup ∧
    (∀ n, n ∈ uniqueInOrder (scanMarkers content) ↔ n ∈ scanMarkers content) := by
  refine ⟨?_, uniqueInOrder_nodup _, fun n => uniqueInOrder_mem _ n⟩
  rw [parseCitations_snd]
  congr 1
  exact funext fun n => citationFor_eq sources n

/-- C3 counterexample: with three sources and answer text "[3]", the marker
number 3 is in range (1 ≤ 3 ≤ sources.length), yet the rendered token
stream contains it only as literal text, because rendering looks the number
up in the parsed citation list (here of length 1), not in the source
list. -/
theorem render_gate_counterexample :
    (1 ≤ 3 ∧ 3 ≤ [srcA, srcB, srcC].length) ∧
    renderMessage "[3]" (some (parseCitations "[3]" [srcA, srcB, srcC]).2) =
      [RToken.literal "", RToken.literal "[3]", RToken.literal ""] := by
  decide

/-- C3 amended: a marker token [n] is rendered as an interactive control
iff 1 ≤ n ≤ citations.length, where citations is the list the citation
parser produced (distinct markers in first-occurrence order, out-of-range
dropped), and the control carries citations[n - 1]; the citation list never
exceeds the source list in length, so a marker greater than sources.length
(such as [9] with 3 sources) is always rendered as literal text identical
to its source form. -/
theorem render_gate_spec (content : String) (sources : List ClientSource) :
    renderMessage content (some (parseCitations content sources).2) =
      (splitParts content).map (fun part =>
        match firstMarker part with
        | some (raw, n) =>
          if h : 1 ≤ n ∧ n ≤ (parseCitations content sources).2.length then
            RToken.button raw ((parseCitations content sources).2.get ⟨n - 1, by omega⟩)
          else RToken.literal part
        | none => RToken.literal part) ∧
    (parseCitations content sources).2.length ≤ sources.length := by
  constructor
  · simp only [renderMessage]
    congr 1
    exact funext fun part => renderPart_eq _ part
  · exact parseCitations_length_le content sources

/-- C4: when retrieval succeeds with an empty passage list, the endpoint
returns 200 with the fixed fallback answer and an empty source list, and
the generation stage is never invoked. -/
theorem empty_retrieval_shortcircuit (env : Env) (raw : String)
    (hmsg : jsTrim raw ≠ "") (emb : List ℚ)
    (hembed : env.embed (jsTrim raw) = Except.ok emb)
    (hretrieve : env.retrieve emb = Except.ok (some [])) :
    POST env raw = (ApiResponse.ok fallbackAnswer [], ⟨true, true, false⟩) := by
  have hctx : context ([] : List RetrievedChunk) = "" := rfl
  simp [POST, hmsg, hembed, hretrieve, hctx]

/-- Witness for C4 at a concrete environment whose retrieval returns an
empty list. -/
theorem empty_retrieval_shortcircuit_witness :
    POST envEmptyW "hi" = (ApiResponse.ok fallbackAnswer [], ⟨true, true, false⟩) :=
  empty_retrieval_shortcircuit envEmptyW "hi" (by decide) [] rfl rfl

/-- C5: the context block renders entry i as "[i+1] (Page P) content" with
P the passage's numeric page or the sentinel "?", entries in list order,
joined by a blank-line separator. -/
theorem context_spec (chunks : List RetrievedChunk) :
    context chunks = String.intercalate "\n\n" (mapWithIndex contextEntry chunks) ∧
    (mapWithIndex contextEntry chunks).length = chunks.length ∧
    ∀ i c, chunks[i]? = some c →
      (mapWithIndex contextEntry chunks)[i]? =
        some ("[" ++ toString (i + 1) ++ "] (Page " ++
          (match chunkPage c with
           | some q => toString q
           | none => "?") ++ ") " ++ c.content) := by
  refine ⟨rfl, mapWithIndex_length _ _, fun i c h => ?_⟩
  rw [mapWithIndex_getElem?, h]
  rfl

/-- Witness for C5 at a one-element list with page 12. -/
theorem context_spec_witness :
    (mapWithIndex contextEntry [chunkW])[0]? = some "[1] (Page 12) alpha" :=
  (context_spec [chunkW]).2.2 0 chunkW rfl

/-- C6: a request whose message trims to the empty string gets a 400
response with an error body, and no pipeline stage is invoked. -/
theorem empty_message_validation (env : Env) (raw : String) (h : jsTrim raw = "") :
    POST env raw = (ApiResponse.badRequest "Empty query", ⟨false, false, false⟩) := by
  simp [POST, h]

/-- Witness for C6 at a whitespace-only message. -/
theorem empty_message_validation_witness :
    POST envEmptyW "   " = (ApiResponse.badRequest "Empty query", ⟨false, false, false⟩) :=
  empty_message_validation envEmptyW "   " (by decide)

/-- C7 counterexample: a failure whose description is the empty string
yields a 500 response whose error message is "Unknown error", not the
underlying (empty) description. -/
theorem error_message_counterexample :
    POST envBlankErrW "hi" = (ApiResponse.serverError "Unknown error", ⟨true, false, false⟩) ∧
    "Unknown error" ≠ "" := by
  exact ⟨by decide, by decide⟩

/-- C7 amended: a failure at any pipeline stage (embedding, retrieval, or
generation) aborts the whole request with a 500 response whose error
message is the failure's description, except that an empty description is
replaced by "Unknown error"; the 500 response carries no answer and no
source list, and later stages are not invoked. -/
theorem stage_failure_aborts (env : Env) (raw : String) (e : String) :
    (jsTrim raw ≠ "" → env.embed (jsTrim raw) = Except.error e →
      POST env raw = (ApiResponse.serverError (errBody e), ⟨true, false, false⟩)) ∧
    (∀ emb, jsTrim raw ≠ "" → env.embed (jsTrim raw) = Except.ok emb →
      env.retrieve emb = Except.error e →
      POST env raw = (ApiResponse.serverError (errBody e), ⟨true, true, false⟩)) ∧
    (∀ emb chunksOpt, jsTrim raw ≠ "" → env.embed (jsTrim raw) = Except.ok emb →
      env.retrieve emb = Except.ok chunksOpt →
      context (chunksOpt.getD []) ≠ "" →
      env.generate (jsTrim raw) (context (chunksOpt.getD [])) = Except.error e →
      POST env raw = (ApiResponse.serverError (errBody e), ⟨true, true, true⟩)) := by
  refine ⟨fun h1 h2 => ?_, fun emb h1 h2 h3 => ?_, fun emb chunksOpt h1 h2 h3 h4 h5 => ?_⟩
  · simp [POST, h1, h2]
  · simp [POST, h1, h2, h3]
  · simp [POST, h1, h2, h3, h4, h5]

/-- Witness for C7 at a concrete environment whose embedding stage fails
with description "boom". -/
theorem stage_failure_aborts_witness :
    POST envBoomW "hi" = (ApiResponse.serverError "boom", ⟨true, false, false⟩) :=
  (stage_failure_aborts envBoomW "hi" "boom").1 (by decide) rfl

/-- C8: citation parsing is a pure function of (text, sources): equal
inputs give identical citation lists, identical token splits, and identical
rendered token streams. -/
theorem parse_deterministic (c1 c2 : String) (s1 s2 : List ClientSource)
    (hc : c1 = c2) (hs : s1 = s2) :
    parseCitations c1 s1 = parseCitations c2 s2 ∧
    splitParts c1 = splitParts c2 ∧
    renderMessage c1 (some (parseCitations c1 s1).2) =
      renderMessage c2 (some (parseCitations c2 s2).2) := by
  subst hc
  subst hs
  exact ⟨rfl, rfl, rfl⟩

/-- Witness for C8 at a concrete text and source list. -/
theorem parse_deterministic_witness :
    parseCitations "a [1]" [srcA] = parseCitations "a [1]" [srcA] ∧
    splitParts "a [1]" = splitParts "a [1]" ∧
    renderMessage "a [1]" (some (parseCitations "a [1]" [srcA]).2) =
      renderMessage "a [1]" (some (parseCitations "a [1]" [srcA]).2) :=
  parse_deterministic "a [1]" "a [1]" [srcA] [srcA] rfl rfl

/-- C9: the popup is a single-slot state machine: activating a citation
from any state replaces the slot with the new citation, positioned at the
triggering control's left edge and 10 px above its top; the explicit close
control and the full-screen scrim both put the slot back to Closed. -/
theorem popup_single_slot (s : Option CitationPopup) (c : Citation) (r : Rect) :
    popupStep s (PopupEvent.activate c r) = some ⟨c, r.left, r.top - 10⟩ ∧
    popupStep s PopupEvent.closeButton = none ∧
    popupStep s PopupEvent.scrimClick = none :=
  ⟨rfl, rfl, rfl⟩

/-- C10: the citation parser returns the answer text unchanged; markers are
never removed or rewritten. -/
theorem parse_preserves_text (content : String) (sources : List ClientSource) :
    (parseCitations content sources).1 = content := rfl

end RagChat
